import Mathlib

/-!
Shallow embedding of the UPHR-Vault backend (TypeScript, Express + Firestore),
covering the extraction normalizer (`processExtractedValues` in
`src/backend/src/routes/doctorRoutes.ts` and the post-extraction fixups in
`src/backend/src/services/geminiService.ts`) and the doctor-access-token
subsystem (`createDoctorAccessToken`, `revokeDoctorAccessToken`,
`doctorAccessTokens` listing and `GET /doctor/timeline/:token`).

Modelling conventions:
- JavaScript numbers are modelled as exact rationals (`ℚ`) plus an explicit
  infinity constructor for `parseFloat`'s `Infinity` results; float rounding
  is not modelled (no claim here depends on it).
- Timestamps that the source only ever compares through `Date.getTime()`
  (`expiresAt`, `createdAt` of an access token, `Date.now()`) are modelled as
  epoch milliseconds (`ℕ`).  Report dates (`timestamp`, `uploadedAt`) stay
  ISO-formatted strings, as Firestore orders them lexicographically.
- Firestore collections are lists of documents; the `reports` collection is
  keyed by report id (`doc(reportId).set(...)`), which we carry as a `Nodup`
  hypothesis on the stored ids where a claim needs it.
-/

/-- A JavaScript number as produced by `parseFloat`: a finite value or a
signed infinity (`parseFloat("Infinity")`).  `NaN` is represented by `none`
at the `Option JSNum` level, mirroring the `!isNaN(...)` guards in the
source. -/
inductive JSNum where
  | fin (q : ℚ)
  | inf (neg : Bool)
deriving DecidableEq, Repr

/-- The `value` field of an extracted measurement: `number | string`
(`GeminiExtractedValue.value` in `src/backend/src/types.ts`). -/
inductive JSVal where
  | num (n : JSNum)
  | str (s : String)
deriving DecidableEq, Repr

/-- The runtime shape of the `isAbnormal` field before normalization: the
source guards with `typeof value.isAbnormal !== 'boolean'`, so the field may
arrive as a boolean, a string, a number, or be absent (`undefined`). -/
inductive JSAbn where
  | bool (b : Bool)
  | str (s : String)
  | num (n : JSNum)
  | undef
deriving DecidableEq, Repr

/-- One extracted measurement (`GeminiExtractedValue` in
`src/backend/src/types.ts`). -/
structure GeminiExtractedValue where
  value : JSVal
  unit : Option String
  ref : Option String
  isAbnormal : JSAbn
deriving DecidableEq, Repr

/-- JavaScript `StrWhiteSpace` characters skipped by `parseFloat` (the ASCII
ones; exotic Unicode space characters are not modelled). -/
def isJSSpace (c : Char) : Bool :=
  c = ' ' || c = '\t' || c = '\n' || c = '\r' ||
    c = Char.ofNat 11 || c = Char.ofNat 12

/-- Numeric value of a decimal digit character. -/
def digitVal (c : Char) : ℕ := c.toNat - '0'.toNat

/-- Decimal digits to a natural number (most significant first). -/
def digitsToNat (ds : List Char) : ℕ := ds.foldl (fun a c => a * 10 + digitVal c) 0

/-- The exponent part of a JS float literal, after the `e`/`E` marker:
optional sign followed by at least one digit.  `parseFloat("12e")` ignores
the dangling `e`, which corresponds to the `none` result here. -/
def parseExpDigits (cs : List Char) : Option ℤ :=
  match cs with
  | '+' :: r => if (r.takeWhile Char.isDigit).isEmpty then none
                else some (digitsToNat (r.takeWhile Char.isDigit) : ℤ)
  | '-' :: r => if (r.takeWhile Char.isDigit).isEmpty then none
                else some (-(digitsToNat (r.takeWhile Char.isDigit) : ℤ))
  | r => if (r.takeWhile Char.isDigit).isEmpty then none
         else some (digitsToNat (r.takeWhile Char.isDigit) : ℤ)

/-- The numeric-literal token recognized by `parseFloat`, before it is given
a numeric value: `Infinity`, or a sign with integer digits, fraction digits
(with their count, to recover the decimal point) and a decimal exponent. -/
inductive FloatTok where
  | inf (neg : Bool)
  | dec (neg : Bool) (intPart fracPart fracLen : ℕ) (exp : ℤ)
deriving DecidableEq, Repr

/-- The scanning phase of JavaScript `parseFloat`: skip leading whitespace,
read an optional sign, then the longest numeric-literal prefix of the
remaining characters (`Infinity`, or digits with optional fraction and
exponent).  Returns `none` exactly when `parseFloat` returns `NaN`, i.e.
when no digits (and no `Infinity`) are found.  Trailing garbage after the
numeric prefix is ignored, as in JS: `parseFloat("12abc") = 12`. -/
def jsParseFloatTok (s : String) : Option FloatTok :=
  let cs := s.toList.dropWhile isJSSpace
  let (neg, cs1) :=
    match cs with
    | '+' :: r => (false, r)
    | '-' :: r => (true, r)
    | r => (false, r)
  if ("Infinity".toList).isPrefixOf cs1 then
    some (FloatTok.inf neg)
  else
    let intDs := cs1.takeWhile Char.isDigit
    let rest1 := cs1.dropWhile Char.isDigit
    let (fracDs, rest2) :=
      match rest1 with
      | '.' :: r => (r.takeWhile Char.isDigit, r.dropWhile Char.isDigit)
      | r => ([], r)
    if intDs.isEmpty && fracDs.isEmpty then none
    else
      let e : ℤ :=
        match rest2 with
        | 'e' :: r => (parseExpDigits r).getD 0
        | 'E' :: r => (parseExpDigits r).getD 0
        | _ => 0
      some (FloatTok.dec neg (digitsToNat intDs) (digitsToNat fracDs) fracDs.length e)

/-- The numeric value of a recognized `parseFloat` token (exact rational
semantics; IEEE rounding is not modelled). -/
def tokValue : FloatTok → JSNum
  | FloatTok.inf n => JSNum.inf n
  | FloatTok.dec neg ip fp fl e =>
      let mag : ℚ := ((ip : ℚ) + (fp : ℚ) / (10 : ℚ) ^ fl) * (10 : ℚ) ^ e
      JSNum.fin (if neg then -mag else mag)

/-- Model of JavaScript `parseFloat`: `none` is `NaN`. -/
def jsParseFloat (s : String) : Option JSNum :=
  (jsParseFloatTok s).map tokValue

/-- The `value` coercion applied both in `processExtractedValues`
(`doctorRoutes.ts` lines 82–84) and in `extractMedicalData`
(`geminiService.ts` lines 130–134):
`if (typeof v === 'string' && !isNaN(parseFloat(v))) v = parseFloat(v)`. -/
def coerceNumericString (v : JSVal) : JSVal :=
  match v with
  | JSVal.str s =>
    match jsParseFloat s with
    | some n => JSVal.num n
    | none => JSVal.str s
  | JSVal.num n => JSVal.num n

/-- Normalization of one measurement by `processExtractedValues`
(`doctorRoutes.ts` lines 79–89): coerce a numeric-looking string value, then
force `isAbnormal` to a boolean
(`value.isAbnormal === 'true' || value.isAbnormal === true`; inside the
non-boolean branch the second disjunct is always false). -/
def processOne (v : GeminiExtractedValue) : GeminiExtractedValue :=
  let v1 : GeminiExtractedValue := { v with value := coerceNumericString v.value }
  match v1.isAbnormal with
  | JSAbn.bool _ => v1
  | x => { v1 with isAbnormal := JSAbn.bool (decide (x = JSAbn.str "true")) }

/-- `processExtractedValues` (`doctorRoutes.ts` lines 77–91): the
`for (const key in data)` loop, modelled as a map over the record's entries
in iteration order. -/
def processExtractedValues (kvs : List (String × GeminiExtractedValue)) :
    List (String × GeminiExtractedValue) :=
  kvs.map (fun p => (p.1, processOne p.2))

/-- Modelled from the spec: the spec-side condition "the text parses fully
as a decimal number (the entire string is a decimal numeral)" (§4.1), used
only to compare against the source's `parseFloat`-based condition: optional
sign, then digits with an optional decimal point, consuming the entire
string, with at least one digit. -/
def parsesFullyAsDecimal (s : String) : Bool :=
  let cs :=
    match s.toList with
    | '+' :: r => r
    | '-' :: r => r
    | r => r
  let intDs := cs.takeWhile Char.isDigit
  let rest1 := cs.dropWhile Char.isDigit
  let (fracDs, rest2) :=
    match rest1 with
    | '.' :: r => (r.takeWhile Char.isDigit, r.dropWhile Char.isDigit)
    | r => ([], r)
  (!intDs.isEmpty || !fracDs.isEmpty) && rest2.isEmpty

/-- The UTC calendar date extracted by `new Date(s).toISOString().split('T')[0]`
for a successfully parsed date (`geminiService.ts` lines 123–126).  The
generic `new Date(...)` parser itself is an external JS facility and is
passed as an oracle `String → Option JSDate` below (`none` models an
`Invalid Date`, i.e. `isNaN(date.getTime())`). -/
structure JSDate where
  year : ℕ
  month : ℕ
  day : ℕ
deriving DecidableEq, Repr

/-- Two-digit zero-padded decimal rendering, as `toISOString` uses for the
month and day fields. -/
def pad2 (n : ℕ) : List Char := [Nat.digitChar (n / 10 % 10), Nat.digitChar (n % 10)]

/-- Four-digit zero-padded decimal rendering, as `toISOString` uses for the
year field.  Faithful for years ≤ 9999; `toISOString` switches to an
expanded `±YYYYYY` form beyond that, which is not modelled (the theorems
about this rendering carry a `year ≤ 9999` hypothesis). -/
def pad4 (n : ℕ) : List Char :=
  [Nat.digitChar (n / 1000 % 10), Nat.digitChar (n / 100 % 10),
   Nat.digitChar (n / 10 % 10), Nat.digitChar (n % 10)]

/-- `date.toISOString().split('T')[0]`: the `YYYY-MM-DD` date part. -/
def toISODatePart (d : JSDate) : String :=
  String.mk (pad4 d.year ++ '-' :: pad2 d.month ++ '-' :: pad2 d.day)

/-- The strict date pattern `/^\d{4}-\d{2}-\d{2}$/` tested in
`geminiService.ts` line 120. -/
def matchesStrictDate (s : String) : Bool :=
  match s.toList with
  | [a, b, c, d, '-', e, f, '-', g, h] =>
      a.isDigit && b.isDigit && c.isDigit && d.isDigit &&
      e.isDigit && f.isDigit && g.isDigit && h.isDigit
  | _ => false

/-- Timestamp normalization in `extractMedicalData` (`geminiService.ts`
lines 119–129): `if (extractedData.timestamp && !/^\d{4}-\d{2}-\d{2}$/.test(ts))`
then reparse with `new Date`, reformat on success, fall back to `"Unknown"`
on failure; otherwise (pattern match, or falsy i.e. empty string) keep the
string unchanged. -/
def normalizeTimestamp (jsDateParse : String → Option JSDate) (ts : String) : String :=
  if ts != "" && !matchesStrictDate ts then
    match jsDateParse ts with
    | some d => toISODatePart d
    | none => "Unknown"
  else ts

/-- The raw extraction payload (`GeminiExtractedData` in
`src/backend/src/types.ts`). -/
structure GeminiExtractedData where
  reportType : Option String
  hospital : Option String
  extractedValues : List (String × GeminiExtractedValue)
  diagnosis : List String
  medications : List String
  abnormalities : List String
  patientSummary : String
  doctorSummary : String
  timestamp : String
deriving DecidableEq, Repr

/-- The post-extraction fixups of `extractMedicalData` (`geminiService.ts`
lines 119–134): normalize the timestamp and coerce numeric-looking string
values; every other field is passed through untouched. -/
def postExtract (jsDateParse : String → Option JSDate) (d : GeminiExtractedData) :
    GeminiExtractedData :=
  { d with
    timestamp := normalizeTimestamp jsDateParse d.timestamp
    extractedValues := d.extractedValues.map (fun p => (p.1, { p.2 with value := coerceNumericString p.2.value })) }

example : jsParseFloatTok "98.6" = some (FloatTok.dec false 98 6 1 0) := by decide
example : jsParseFloat "98.6" = some (JSNum.fin (493 / 5)) := by
  have h : jsParseFloatTok "98.6" = some (FloatTok.dec false 98 6 1 0) := by decide
  simp [jsParseFloat, h, tokValue]
  norm_num
example : jsParseFloat "N/A" = none := by
  have h : jsParseFloatTok "N/A" = none := by decide
  simp [jsParseFloat, h]
example : jsParseFloat "12abc" = some (JSNum.fin 12) := by
  have h : jsParseFloatTok "12abc" = some (FloatTok.dec false 12 0 0 0) := by decide
  simp [jsParseFloat, h, tokValue]
example : jsParseFloat "" = none := by
  have h : jsParseFloatTok "" = none := by decide
  simp [jsParseFloat, h]
example : jsParseFloat "  -3.5e2x" = some (JSNum.fin (-350)) := by
  have h : jsParseFloatTok "  -3.5e2x" = some (FloatTok.dec true 3 5 1 2) := by decide
  simp [jsParseFloat, h, tokValue]
  norm_num
example : parsesFullyAsDecimal "98.6" = true := by decide
example : parsesFullyAsDecimal "12abc" = false := by decide
example : matchesStrictDate "2023-04-01" = true := by decide
example : matchesStrictDate "reported in spring 2023" = false := by decide
example : toISODatePart ⟨2023, 4, 1⟩ = "2023-04-01" := by decide

/-- A doctor access token / access grant (`DoctorAccessToken` in
`src/backend/src/types.ts`).  `expiresAt` and `createdAt` are stored as ISO
strings in the source but only ever consumed through `new Date(...)`
comparisons and `getTime()` arithmetic, so they are modelled as epoch
milliseconds. -/
structure DoctorAccessToken where
  id : String
  userId : String
  token : String
  expiresAt : ℕ
  isActive : Bool
  createdAt : ℕ
  allowedReports : List String
deriving DecidableEq, Repr

/-- A canonical medical report (`Report` in `src/backend/src/types.ts`).
`timestamp` (the clinical date, `capturedAt` in the spec) and `uploadedAt`
(`ingestedAt` in the spec) are ISO-formatted strings, ordered
lexicographically by Firestore. -/
structure Report where
  id : String
  userId : String
  hospital : Option String
  fileUrl : String
  fileName : String
  uploadedAt : String
  reportType : Option String
  extractedValues : List (String × GeminiExtractedValue)
  diagnosis : List String
  medications : List String
  abnormalities : List String
  patientSummary : String
  doctorSummary : String
  timestamp : String
deriving DecidableEq, Repr

/-- A document of the `users` collection: the Firestore document id together
with the embedded `doctorAccessTokens` map (`UserProfile` in `types.ts`),
kept in the map's iteration order.  A missing/undefined map is the empty
list. -/
structure UserDoc where
  uid : String
  doctorAccessTokens : List (String × DoctorAccessToken)
deriving DecidableEq, Repr

/-- The durable state the doctor-access routes read and write: the `users`
collection and the `reports` collection (the latter keyed by report id,
`doc(reportId).set(...)`). -/
structure Store where
  users : List UserDoc
  reports : List Report
deriving DecidableEq, Repr

/-- The Firestore query
`reports.where('id','in',ids).where('userId','==',uid)` used both for
ownership validation at issuance (`doctorRoutes.ts` lines 215–218) and for
the scoped timeline read: each stored document is returned at most once,
whether or not `ids` lists its id several times. -/
def getByIds (st : Store) (uid : String) (ids : List String) : List Report :=
  st.reports.filter (fun r => ids.contains r.id && r.userId == uid)

/-- Firestore's total order for `orderBy('timestamp', 'desc')`: `a` precedes
`b` when `a.timestamp` is the later string, ties broken by the implicit sort
on the document id (the report id) in the direction of the last explicit
sort clause, i.e. descending.  Firestore compares string values by UTF-8
byte order, modelled here as the lexicographic order on the character
lists. -/
def fsAfter (a b : Report) : Prop :=
  b.timestamp.toList < a.timestamp.toList ∨
    (b.timestamp = a.timestamp ∧ b.id.toList ≤ a.id.toList)

instance : DecidableRel fsAfter := fun a b => by
  unfold fsAfter; infer_instance

instance : IsTotal Report fsAfter where
  total a b := by
    have hinj : ∀ {x y : String}, x.toList = y.toList → x = y := by
      intro x y h
      cases x; cases y
      exact congrArg String.mk (by simpa [String.toList] using h)
    rcases lt_trichotomy a.timestamp.toList b.timestamp.toList with h | h | h
    · exact Or.inr (Or.inl h)
    · rcases le_total a.id.toList b.id.toList with h2 | h2
      · exact Or.inr (Or.inr ⟨hinj h, h2⟩)
      · exact Or.inl (Or.inr ⟨(hinj h).symm, h2⟩)
    · exact Or.inl (Or.inl h)

instance : IsTrans Report fsAfter where
  trans a b c hab hbc := by
    rcases hab with h1 | ⟨h1e, h1le⟩
    · rcases hbc with h2 | ⟨h2e, _⟩
      · exact Or.inl (h2.trans h1)
      · exact Or.inl (by rw [h2e]; exact h1)
    · rcases hbc with h2 | ⟨h2e, h2le⟩
      · exact Or.inl (by rw [← h1e]; exact h2)
      · exact Or.inr ⟨h2e.trans h1e, h2le.trans h1le⟩

/-- The result list of a Firestore query with `orderBy('timestamp','desc')`:
the matching documents arranged according to `fsAfter`. -/
def orderByTimestampDesc (rs : List Report) : List Report :=
  rs.insertionSort fsAfter

/-- `GET /patient/reports` (`doctorRoutes.ts` lines 154–171): all reports of
the authenticated user, ordered by `timestamp` descending. -/
def getPatientReports (st : Store) (uid : String) : List Report :=
  orderByTimestampDesc (st.reports.filter (fun r => r.userId == uid))

/-- Outcome of `POST /patient/createDoctorAccessToken`. -/
inductive IssueResult where
  | badRequest
  | forbidden
  | serverError
  | created (t : DoctorAccessToken)
deriving DecidableEq, Repr

/-- Insertion of `doctorAccessTokens.${tokenId} = newToken` into the
embedded map by `update(...)`: replace the entry if the key exists,
otherwise append. -/
def setTokenEntry (m : List (String × DoctorAccessToken)) (tid : String)
    (t : DoctorAccessToken) : List (String × DoctorAccessToken) :=
  if m.any (fun p => p.1 == tid) then
    m.map (fun p => if p.1 == tid then (tid, t) else p)
  else m ++ [(tid, t)]

/-- `POST /patient/createDoctorAccessToken` (`doctorRoutes.ts` lines
203–248).  `tokenId` and `tokenValue` stand for the two fresh `uuidv4()`
draws (the route's only randomness); `now` is `Date.now()` in epoch
milliseconds.  The route rejects an empty selection with 400, rejects with
403 when the ownership query returns fewer documents than `allowedReports`
lists ids, and otherwise commits the new token under the caller's user
document (a missing user document makes the Firestore `update` throw, which
the catch-all turns into a 500 with no write). -/
def createDoctorAccessToken (st : Store) (uid : String) (allowedReports : List String)
    (tokenId tokenValue : String) (now : ℕ) : IssueResult × Store :=
  if allowedReports.isEmpty then (IssueResult.badRequest, st)
  else if (getByIds st uid allowedReports).length ≠ allowedReports.length then
    (IssueResult.forbidden, st)
  else if st.users.all (fun u => !(u.uid == uid)) then (IssueResult.serverError, st)
  else
    let newToken : DoctorAccessToken :=
      { id := tokenId
        userId := uid
        token := tokenValue
        expiresAt := now + 24 * 60 * 60 * 1000
        isActive := true
        createdAt := now
        allowedReports := allowedReports }
    (IssueResult.created newToken,
      { st with
        users := st.users.map (fun u =>
          if u.uid == uid then
            { u with doctorAccessTokens := setTokenEntry u.doctorAccessTokens tokenId newToken }
          else u) })

/-- `GET /patient/doctorAccessTokens` (`doctorRoutes.ts` lines 175–199):
`none` models the 404 for a missing user document; otherwise the embedded
tokens filtered to `isActive` and sorted by `createdAt` descending. -/
def listActiveTokens (st : Store) (uid : String) : Option (List DoctorAccessToken) :=
  match st.users.find? (fun u => u.uid == uid) with
  | none => none
  | some u =>
      some (((u.doctorAccessTokens.map Prod.snd).filter (fun t => t.isActive)).insertionSort
        (fun a b => b.createdAt ≤ a.createdAt))

/-- Outcome of `POST /patient/revokeDoctorAccessToken`. -/
inductive RevokeResult where
  | badRequest
  | notFoundUser
  | notFoundToken
  | revoked
deriving DecidableEq, Repr

/-- `POST /patient/revokeDoctorAccessToken` (`doctorRoutes.ts` lines
252–285): a falsy (empty) token id is a 400; a missing user document or a
token id absent from the user's map is a 404; otherwise
`doctorAccessTokens.${tokenId}.isActive := false`. -/
def revokeDoctorAccessToken (st : Store) (uid tid : String) : RevokeResult × Store :=
  if tid == "" then (RevokeResult.badRequest, st)
  else
    match st.users.find? (fun u => u.uid == uid) with
    | none => (RevokeResult.notFoundUser, st)
    | some u =>
        if u.doctorAccessTokens.all (fun p => !(p.1 == tid)) then
          (RevokeResult.notFoundToken, st)
        else
          (RevokeResult.revoked,
            { st with
              users := st.users.map (fun w =>
                if w.uid == uid then
                  { w with doctorAccessTokens := w.doctorAccessTokens.map (fun p =>
                      if p.1 == tid then (p.1, { p.2 with isActive := false }) else p) }
                else w) })

/-- The token-resolution loop of `GET /doctor/timeline/:token`
(`doctorRoutes.ts` lines 17–33): walk the entire `users` collection in
order, and inside each user document walk the `doctorAccessTokens` map until
an entry's `token` field equals the presented value.  The second component
counts the user documents examined, the unit in which the scan's cost grows. -/
def findTokenScan : List UserDoc → String → Option (DoctorAccessToken × String) × ℕ
  | [], _ => (none, 0)
  | u :: rest, tv =>
      match u.doctorAccessTokens.find? (fun p => p.2.token == tv) with
      | some p => (some (p.2, u.uid), 1)
      | none =>
          let r := findTokenScan rest tv
          (r.1, r.2 + 1)

/-- Viewer-observable outcome of `GET /doctor/timeline/:token`: a report
list on success, or an HTTP status with its error message. -/
inductive TimelineResult where
  | ok (reports : List Report)
  | err (status : ℕ) (msg : String)
deriving DecidableEq, Repr

/-- `GET /doctor/timeline/:token` (`doctorRoutes.ts` lines 10–62): resolve
the token by the linear scan; an unmatched token is a 404; an inactive token
or one with `new Date(expiresAt) < now` is a 403; otherwise the reports of
the patient restricted to `allowedReports`, ordered by `timestamp`
descending. -/
def doctorTimeline (st : Store) (tokenValue : String) (now : ℕ) : TimelineResult :=
  match (findTokenScan st.users tokenValue).1 with
  | none => TimelineResult.err 404 "Invalid or expired doctor access token."
  | some (foundToken, patientUserId) =>
      if !foundToken.isActive || foundToken.expiresAt < now then
        TimelineResult.err 403 "Doctor access token is inactive or expired."
      else
        TimelineResult.ok (orderByTimestampDesc (st.reports.filter (fun r =>
          r.userId == patientUserId && foundToken.allowedReports.contains r.id)))

/-- A report with the fields the grant subsystem inspects (`id`, `userId`,
`timestamp`, `uploadedAt`) set explicitly and the remaining payload fields
empty. -/
def mkReport (i uid ts up : String) : Report :=
  { id := i
    userId := uid
    hospital := none
    fileUrl := ""
    fileName := ""
    uploadedAt := up
    reportType := none
    extractedValues := []
    diagnosis := []
    medications := []
    abnormalities := []
    patientSummary := ""
    doctorSummary := ""
    timestamp := ts }

/-- Number of access grants anywhere in the store whose bearer `token` field
equals `tv`. -/
def countToken (st : Store) (tv : String) : ℕ :=
  (st.users.map (fun u => (u.doctorAccessTokens.filter (fun p => p.2.token == tv)).length)).sum

/-- A user document with no access tokens. -/
def emptyUser (i : String) : UserDoc := ⟨i, []⟩

/-- Fixture: a patient `p` with one report and no tokens. -/
def stOneReport : Store := ⟨[⟨"p", []⟩], [mkReport "r1" "p" "2024-01-10" "2024-06-01"]⟩

/-- Fixture grant: active, expires at 5000 ms. -/
def gC2 : DoctorAccessToken :=
  ⟨"g1", "p", "tok-secret", 5000, true, 0, ["r1"]⟩

/-- Fixture: patient `p` holding `gC2` and the report it scopes. -/
def stC2 : Store :=
  ⟨[⟨"p", [("g1", gC2)]⟩], [mkReport "r1" "p" "2024-01-10" "2024-06-01"]⟩

/-- Fixture grant to be revoked (expiry far in the future). -/
def gRev : DoctorAccessToken := ⟨"g1", "p", "tokrev", 999999, true, 0, ["r1"]⟩

/-- Fixture grant that expires at 1000 ms while staying `isActive`. -/
def gExp : DoctorAccessToken := ⟨"g2", "p", "tokexp", 1000, true, 0, ["r1"]⟩

/-- Fixture: patient `p` holding `gRev` and `gExp`. -/
def stC3 : Store := ⟨[⟨"p", [("g1", gRev), ("g2", gExp)]⟩], []⟩

/-- Fixture grant already committed with bearer token value `TOK`. -/
def gOld : DoctorAccessToken := ⟨"g1", "p", "TOK", 86400000, true, 0, ["r1"]⟩

/-- Fixture: patient `p` holding `gOld` and the report `r1`. -/
def stC4 : Store :=
  ⟨[⟨"p", [("g1", gOld)]⟩], [mkReport "r1" "p" "2024-01-10" "2024-06-01"]⟩

/-- Fixtures for the ordering claim: three reports of `p` sharing the same
clinical date but ingested on different days. -/
def rA : Report := mkReport "a" "p" "2024-01-10" "2024-06-02T00:00:00.000Z"

def rB : Report := mkReport "b" "p" "2024-01-10" "2024-06-03T00:00:00.000Z"

def rC : Report := mkReport "c" "p" "2024-01-10" "2024-06-01T00:00:00.000Z"

/-- Fixture store for the ordering claim. -/
def stC9 : Store := ⟨[], [rA, rB, rC]⟩

/-- Fixture measurement: textual value that is not numeric at all. -/
def measNA : GeminiExtractedValue := ⟨JSVal.str "N/A", none, none, JSAbn.undef⟩

/-- Fixture measurement: numeric-looking textual value with a string-encoded
abnormality flag. -/
def meas986 : GeminiExtractedValue := ⟨JSVal.str "98.6", some "F", none, JSAbn.str "true"⟩

/-- Fixture measurement: textual value with a numeric-literal strict prefix
followed by trailing garbage. -/
def meas12abc : GeminiExtractedValue := ⟨JSVal.str "12abc", none, none, JSAbn.undef⟩

theorem processOne_value (v : GeminiExtractedValue) :
    (processOne v).value = coerceNumericString v.value := by
  obtain ⟨val, u, r, ab⟩ := v
  cases ab <;> rfl

theorem processOne_isAbnormal (v : GeminiExtractedValue) :
    (processOne v).isAbnormal =
      (match v.isAbnormal with
       | JSAbn.bool b => JSAbn.bool b
       | x => JSAbn.bool (decide (x = JSAbn.str "true"))) := by
  obtain ⟨val, u, r, ab⟩ := v
  cases ab <;> rfl

/-- Digit characters produced by the zero-padded renderings are decimal
digits. -/
theorem isDigit_digitChar_mod (n : ℕ) : (Nat.digitChar (n % 10)).isDigit = true := by
  have h : n % 10 < 10 := Nat.mod_lt _ (by norm_num)
  generalize hg : n % 10 = k
  rw [hg] at h
  interval_cases k <;> decide

/-- The `YYYY-MM-DD` rendering of a parsed date matches the strict pattern
(for years in `toISOString`'s plain four-digit range). -/
theorem toISODatePart_matches (d : JSDate) (_hy : d.year ≤ 9999) :
    matchesStrictDate (toISODatePart d) = true := by
  simp [toISODatePart, matchesStrictDate, pad4, pad2, String.toList, isDigit_digitChar_mod]

/-- C6: for every measurement in the extraction payload, the normalized
`isAbnormal` is a strict boolean, `true` exactly when the payload supplied
the literal boolean `true` or the exact (case-sensitive) string `"true"`;
every other input — other strings, numbers, or a missing field — becomes
`false`. -/
theorem c6_isAbnormal_strict (kvs : List (String × GeminiExtractedValue))
    (k : String) (v : GeminiExtractedValue) (hmem : (k, v) ∈ kvs) :
    (k, processOne v) ∈ processExtractedValues kvs ∧
    ∃ b : Bool, (processOne v).isAbnormal = JSAbn.bool b ∧
      (b = true ↔ (v.isAbnormal = JSAbn.bool true ∨ v.isAbnormal = JSAbn.str "true")) := by
  refine ⟨List.mem_map_of_mem _ hmem, ?_⟩
  rw [processOne_isAbnormal]
  cases hv : v.isAbnormal
  case bool b => exact ⟨b, rfl, by cases b <;> simp⟩
  case str s => exact ⟨decide (s = "true"), by simp, by simp⟩
  case num n => exact ⟨false, by simp, by simp⟩
  case undef => exact ⟨false, by simp, by simp⟩

/-- Witness for C6 at a concrete payload entry with `isAbnormal := "true"`. -/
theorem c6_isAbnormal_strict_witness :
    ("temp", processOne meas986) ∈ processExtractedValues [("temp", meas986)] ∧
    ∃ b : Bool, (processOne meas986).isAbnormal = JSAbn.bool b ∧
      (b = true ↔ (meas986.isAbnormal = JSAbn.bool true ∨ meas986.isAbnormal = JSAbn.str "true")) :=
  c6_isAbnormal_strict [("temp", meas986)] "temp" meas986 (by decide)

/-- C5 (amended): for every measurement whose `value` is textual, the
normalizer replaces it with a number exactly when JavaScript `parseFloat`
recognizes a numeric-literal prefix of the text (`jsParseFloat ≠ none`), in
which case the stored number is that prefix's value; only when `parseFloat`
yields `NaN` is the text kept verbatim. -/
theorem c5_value_replacement (kvs : List (String × GeminiExtractedValue))
    (k : String) (v : GeminiExtractedValue) (s : String)
    (hmem : (k, v) ∈ kvs) (hs : v.value = JSVal.str s) :
    (k, processOne v) ∈ processExtractedValues kvs ∧
    ((processOne v).value = JSVal.str s ↔ jsParseFloat s = none) ∧
    (∀ n, jsParseFloat s = some n → (processOne v).value = JSVal.num n) := by
  refine ⟨List.mem_map_of_mem _ hmem, ?_, ?_⟩
  · rw [processOne_value, hs]
    cases hpf : jsParseFloat s <;> simp [coerceNumericString, hpf]
  · intro n hn
    rw [processOne_value, hs]
    simp [coerceNumericString, hn]

/-- Witness for C5's amended statement at the measurement `"N/A"`, which
`parseFloat` rejects, so the text is kept. -/
theorem c5_value_replacement_witness :
    ("temp", processOne measNA) ∈ processExtractedValues [("temp", measNA)] ∧
    ((processOne measNA).value = JSVal.str "N/A" ↔ jsParseFloat "N/A" = none) ∧
    (∀ n, jsParseFloat "N/A" = some n → (processOne measNA).value = JSVal.num n) :=
  c5_value_replacement [("temp", measNA)] "temp" measNA "N/A" (by decide) rfl

/-- C5 counterexample: the text `"12abc"` does not parse fully as a decimal
numeral, yet the normalizer replaces it with the number 12, because
`parseFloat` accepts any string with a numeric-literal prefix. -/
theorem c5_counterexample :
    (processOne meas12abc).value = JSVal.num (JSNum.fin 12) ∧
    parsesFullyAsDecimal "12abc" = false := by
  constructor
  · rw [processOne_value]
    have h : jsParseFloatTok "12abc" = some (FloatTok.dec false 12 0 0 0) := by decide
    simp [meas12abc, coerceNumericString, jsParseFloat, h, tokValue]
  · decide

/-- C7 (amended): for every nonempty extraction date string the
normalization is total: a string matching the strict `YYYY-MM-DD` pattern is
kept; otherwise generic date parsing is attempted, a successfully parsed
date is reformatted to the strict pattern, and a parse failure stores the
sentinel `"Unknown"`; all other payload fields pass through unchanged.  An
empty date string, however, is kept empty (the source's truthiness guard
skips normalization entirely). -/
theorem c7_timestamp_normalization (parse : String → Option JSDate) (ts : String)
    (hne : ts ≠ "") :
    (matchesStrictDate ts = true → normalizeTimestamp parse ts = ts) ∧
    (matchesStrictDate ts = false → parse ts = none →
        normalizeTimestamp parse ts = "Unknown") ∧
    (∀ d, matchesStrictDate ts = false → parse ts = some d →
        normalizeTimestamp parse ts = toISODatePart d ∧
          (d.year ≤ 9999 → matchesStrictDate (toISODatePart d) = true)) ∧
    (∀ p : String → Option JSDate, normalizeTimestamp p "" = "") ∧
    (∀ d0 : GeminiExtractedData,
        (postExtract parse d0).diagnosis = d0.diagnosis ∧
        (postExtract parse d0).medications = d0.medications ∧
        (postExtract parse d0).abnormalities = d0.abnormalities ∧
        (postExtract parse d0).patientSummary = d0.patientSummary ∧
        (postExtract parse d0).doctorSummary = d0.doctorSummary ∧
        (postExtract parse d0).hospital = d0.hospital ∧
        (postExtract parse d0).reportType = d0.reportType ∧
        (postExtract parse d0).timestamp = normalizeTimestamp parse d0.timestamp) := by
  have hb : (ts != "") = true := by simpa using hne
  refine ⟨?_, ?_, ?_, ?_, ?_⟩
  · intro hm
    simp [normalizeTimestamp, hb, hm]
  · intro hm hp
    simp [normalizeTimestamp, hb, hm, hp]
  · intro d hm hp
    exact ⟨by simp [normalizeTimestamp, hb, hm, hp], fun hy => toISODatePart_matches d hy⟩
  · intro p
    simp [normalizeTimestamp]
  · intro d0
    exact ⟨rfl, rfl, rfl, rfl, rfl, rfl, rfl, rfl⟩

/-- Witness for C7's amended statement at the malformed date
`"reported in spring 2023"` with a generic parser that fails on it. -/
theorem c7_timestamp_normalization_witness :
    (matchesStrictDate "reported in spring 2023" = true →
        normalizeTimestamp (fun _ => none) "reported in spring 2023" = "reported in spring 2023") ∧
    (matchesStrictDate "reported in spring 2023" = false →
        (fun _ : String => (none : Option JSDate)) "reported in spring 2023" = none →
        normalizeTimestamp (fun _ => none) "reported in spring 2023" = "Unknown") ∧
    (∀ d, matchesStrictDate "reported in spring 2023" = false →
        (fun _ : String => (none : Option JSDate)) "reported in spring 2023" = some d →
        normalizeTimestamp (fun _ => none) "reported in spring 2023" = toISODatePart d ∧
          (d.year ≤ 9999 → matchesStrictDate (toISODatePart d) = true)) ∧
    (∀ p : String → Option JSDate, normalizeTimestamp p "" = "") ∧
    (∀ d0 : GeminiExtractedData,
        (postExtract (fun _ => none) d0).diagnosis = d0.diagnosis ∧
        (postExtract (fun _ => none) d0).medications = d0.medications ∧
        (postExtract (fun _ => none) d0).abnormalities = d0.abnormalities ∧
        (postExtract (fun _ => none) d0).patientSummary = d0.patientSummary ∧
        (postExtract (fun _ => none) d0).doctorSummary = d0.doctorSummary ∧
        (postExtract (fun _ => none) d0).hospital = d0.hospital ∧
        (postExtract (fun _ => none) d0).reportType = d0.reportType ∧
        (postExtract (fun _ => none) d0).timestamp =
          normalizeTimestamp (fun _ => none) d0.timestamp) :=
  c7_timestamp_normalization (fun _ => none) "reported in spring 2023" (by decide)

/-- C7 counterexample: the empty date string does not match the strict
pattern and would fail generic parsing, yet the source keeps it as `""`
instead of storing the sentinel `"Unknown"`, because the truthiness guard
`if (extractedData.timestamp && ...)` skips falsy strings. -/
theorem c7_counterexample :
    normalizeTimestamp (fun _ => none) "" = "" ∧
    matchesStrictDate "" = false ∧
    ¬ ("" : String) = "Unknown" := by
  exact ⟨rfl, rfl, by decide⟩

/-- The ownership query returns documents with pairwise distinct report ids
whenever the stored report ids are pairwise distinct (the `reports`
collection is keyed by report id). -/
theorem getByIds_ids_nodup (st : Store) (uid : String) (ids : List String)
    (hids : (st.reports.map (fun r => r.id)).Nodup) :
    ((getByIds st uid ids).map (fun r => r.id)).Nodup :=
  hids.sublist ((List.filter_sublist st.reports).map _)

/-- Every id of a document returned by the ownership query occurs in the
requested id list, and its document is a stored report of the owner. -/
theorem getByIds_ids_spec (st : Store) (uid : String) (ids : List String) :
    ∀ r ∈ getByIds st uid ids, r ∈ st.reports ∧ r.id ∈ ids ∧ r.userId = uid := by
  intro r hr
  have h := List.mem_filter.mp hr
  refine ⟨h.1, ?_, ?_⟩
  · have := (Bool.and_eq_true _ _).mp h.2
    simpa using this.1
  · have := (Bool.and_eq_true _ _).mp h.2
    simpa using this.2

/-- C1: an issuance request listing at least one id that no report of the
caller carries is rejected with `Forbidden` and leaves the store — hence the
`listActive` view — unchanged; no token is minted.  (The ownership check
compares the size of the `getByIds` result with the size of the requested
list, and a missing or foreign id makes the former strictly smaller.) -/
theorem c1_issue_ownership (st : Store) (uid : String) (ids : List String)
    (tid tv : String) (now : ℕ)
    (hids : (st.reports.map (fun r => r.id)).Nodup)
    (i : String) (hi : i ∈ ids)
    (hbad : ∀ r ∈ st.reports, r.id = i → ¬r.userId = uid) :
    createDoctorAccessToken st uid ids tid tv now = (IssueResult.forbidden, st) ∧
    listActiveTokens (createDoctorAccessToken st uid ids tid tv now).2 uid =
      listActiveTokens st uid := by
  classical
  have hlt : (getByIds st uid ids).length < ids.length := by
    have hnd := getByIds_ids_nodup st uid ids hids
    have hmem : ∀ x ∈ (getByIds st uid ids).map (fun r => r.id),
        x ∈ ids.toFinset.erase i := by
      intro x hx
      rcases List.mem_map.mp hx with ⟨r, hrL, rfl⟩
      obtain ⟨hrep, hin, hown⟩ := getByIds_ids_spec st uid ids r hrL
      exact Finset.mem_erase.mpr ⟨fun he => hbad r hrep he hown, List.mem_toFinset.mpr hin⟩
    have h1 : ((getByIds st uid ids).map (fun r => r.id)).length ≤
        (ids.toFinset.erase i).card := by
      rw [← List.toFinset_card_of_nodup hnd]
      exact Finset.card_le_card (fun x hx => hmem x (List.mem_toFinset.mp hx))
    have h2 : (ids.toFinset.erase i).card = ids.toFinset.card - 1 :=
      Finset.card_erase_of_mem (List.mem_toFinset.mpr hi)
    have h3 : ids.toFinset.card ≤ ids.length := List.toFinset_card_le ids
    have h4 : 1 ≤ ids.toFinset.card :=
      Finset.card_pos.mpr ⟨i, List.mem_toFinset.mpr hi⟩
    have h5 : ((getByIds st uid ids).map (fun r => r.id)).length =
        (getByIds st uid ids).length := List.length_map _ _
    omega
  have hne0 : ids.isEmpty = false := by
    cases ids with
    | nil => cases hi
    | cons a l => rfl
  have heq : createDoctorAccessToken st uid ids tid tv now = (IssueResult.forbidden, st) := by
    simp [createDoctorAccessToken, hne0, Nat.ne_of_lt hlt]
  exact ⟨heq, by rw [heq]⟩

/-- Witness for C1: requesting `["r1", "rX"]` where `rX` names no report of
patient `p` is rejected and the store is untouched. -/
theorem c1_issue_ownership_witness :
    createDoctorAccessToken stOneReport "p" ["r1", "rX"] "g1" "tokv" 0 =
      (IssueResult.forbidden, stOneReport) ∧
    listActiveTokens (createDoctorAccessToken stOneReport "p" ["r1", "rX"] "g1" "tokv" 0).2 "p" =
      listActiveTokens stOneReport "p" :=
  c1_issue_ownership stOneReport "p" ["r1", "rX"] "g1" "tokv" 0 (by decide) "rX"
    (by decide) (by decide)

/-- C10: an issuance request that repeats an id is rejected with `Forbidden`
even when every listed id references a report owned by the caller, because
the fetched distinct documents are counted against the length of the
duplicate-containing request list; the store is unchanged. -/
theorem c10_duplicate_ids (st : Store) (uid : String) (ids : List String)
    (tid tv : String) (now : ℕ)
    (hids : (st.reports.map (fun r => r.id)).Nodup)
    (hdup : ¬ids.Nodup)
    (hown : ∀ i ∈ ids, ∃ r ∈ st.reports, r.id = i ∧ r.userId = uid) :
    createDoctorAccessToken st uid ids tid tv now = (IssueResult.forbidden, st) ∧
    listActiveTokens (createDoctorAccessToken st uid ids tid tv now).2 uid =
      listActiveTokens st uid := by
  classical
  have hdl : ids.dedup.length < ids.length := by
    have hsub : List.Sublist ids.dedup ids := ids.dedup_sublist
    rcases lt_or_eq_of_le hsub.length_le with h | h
    · exact h
    · exact absurd (hsub.eq_of_length h ▸ ids.nodup_dedup) hdup
  have hlt : (getByIds st uid ids).length < ids.length := by
    have hnd := getByIds_ids_nodup st uid ids hids
    have h1 : ((getByIds st uid ids).map (fun r => r.id)).length ≤ ids.toFinset.card := by
      rw [← List.toFinset_card_of_nodup hnd]
      refine Finset.card_le_card (fun x hx => ?_)
      rcases List.mem_map.mp (List.mem_toFinset.mp hx) with ⟨r, hrL, rfl⟩
      exact List.mem_toFinset.mpr (getByIds_ids_spec st uid ids r hrL).2.1
    have h2 : ids.toFinset.card = ids.dedup.length := List.card_toFinset ids
    have h5 : ((getByIds st uid ids).map (fun r => r.id)).length =
        (getByIds st uid ids).length := List.length_map _ _
    omega
  have hne0 : ids.isEmpty = false := by
    cases ids with
    | nil => exact absurd List.nodup_nil hdup
    | cons a l => rfl
  have heq : createDoctorAccessToken st uid ids tid tv now = (IssueResult.forbidden, st) := by
    simp [createDoctorAccessToken, hne0, Nat.ne_of_lt hlt]
  exact ⟨heq, by rw [heq]⟩

/-- Witness for C10: requesting `["r1", "r1"]` — both entries naming a
report owned by `p` — is rejected and the store is untouched. -/
theorem c10_duplicate_ids_witness :
    createDoctorAccessToken stOneReport "p" ["r1", "r1"] "g1" "tokv" 0 =
      (IssueResult.forbidden, stOneReport) ∧
    listActiveTokens (createDoctorAccessToken stOneReport "p" ["r1", "r1"] "g1" "tokv" 0).2 "p" =
      listActiveTokens stOneReport "p" :=
  c10_duplicate_ids stOneReport "p" ["r1", "r1"] "g1" "tokv" 0 (by decide) (by decide)
    (by decide)

/-- C2 (amended): for a presented token resolving to grant `g`, the timeline
read succeeds — returning exactly the reports in `g`'s scope — precisely
when `g.isActive = true` and `now ≤ g.expiresAt`; in every other case it
fails with the opaque 403 error and returns no report data.  The source
rejects only when `expiresAt < now`, so the boundary instant
`now = expiresAt` is still granted, unlike the claimed strict
`now < expiresAt` window. -/
theorem c2_validity_window (st : Store) (tv : String) (now : ℕ)
    (g : DoctorAccessToken) (uid : String)
    (hfind : (findTokenScan st.users tv).1 = some (g, uid)) :
    (g.isActive = true ∧ now ≤ g.expiresAt →
        doctorTimeline st tv now = TimelineResult.ok (orderByTimestampDesc
          (st.reports.filter (fun r => r.userId == uid && g.allowedReports.contains r.id)))) ∧
    (¬(g.isActive = true ∧ now ≤ g.expiresAt) →
        doctorTimeline st tv now =
          TimelineResult.err 403 "Doctor access token is inactive or expired.") := by
  constructor
  · rintro ⟨ha, hle⟩
    simp [doctorTimeline, hfind, ha, Nat.not_lt.mpr hle]
  · intro hnot
    cases ha : g.isActive
    · simp [doctorTimeline, hfind, ha]
    · have hlt : g.expiresAt < now := by
        rcases Nat.lt_or_ge g.expiresAt now with h | h
        · exact h
        · exact absurd ⟨ha, h⟩ hnot
      simp [doctorTimeline, hfind, ha, hlt]

/-- Witness for C2's amended statement: an active grant read strictly before
its expiry returns its scoped reports. -/
theorem c2_validity_window_witness :
    (gC2.isActive = true ∧ 4000 ≤ gC2.expiresAt →
        doctorTimeline stC2 "tok-secret" 4000 = TimelineResult.ok (orderByTimestampDesc
          (stC2.reports.filter (fun r => r.userId == "p" && gC2.allowedReports.contains r.id)))) ∧
    (¬(gC2.isActive = true ∧ 4000 ≤ gC2.expiresAt) →
        doctorTimeline stC2 "tok-secret" 4000 =
          TimelineResult.err 403 "Doctor access token is inactive or expired.") :=
  c2_validity_window stC2 "tok-secret" 4000 gC2 "p" (by decide)

/-- C2 counterexample: at the instant `now = expiresAt` (here 5000 ms) the
claimed validity condition `now < expiresAt` is false, yet the source still
returns the scoped reports, because its rejection test is `expiresAt < now`. -/
theorem c2_counterexample :
    doctorTimeline stC2 "tok-secret" 5000 =
      TimelineResult.ok [mkReport "r1" "p" "2024-01-10" "2024-06-01"] ∧
    gC2.isActive = true ∧
    gC2.expiresAt = 5000 ∧
    ¬(5000 < gC2.expiresAt) := by decide

/-- C3 (amended): a revoked grant and a naturally expired grant produce the
identical opaque viewer-facing failure (403, one fixed message), so those
two causes are indistinguishable; but a token held by no grant produces a
different failure (404 with a different message), so an unknown token is
distinguishable from a revoked or expired one. -/
theorem c3_opaque_errors (st : Store) (tv : String) (now : ℕ) :
    ((findTokenScan st.users tv).1 = none →
        doctorTimeline st tv now =
          TimelineResult.err 404 "Invalid or expired doctor access token.") ∧
    (∀ g uid, (findTokenScan st.users tv).1 = some (g, uid) →
        (g.isActive = false ∨ g.expiresAt < now) →
        doctorTimeline st tv now =
          TimelineResult.err 403 "Doctor access token is inactive or expired.") ∧
    (TimelineResult.err 404 "Invalid or expired doctor access token." ≠
      TimelineResult.err 403 "Doctor access token is inactive or expired.") := by
  refine ⟨?_, ?_, by decide⟩
  · intro h
    simp [doctorTimeline, h]
  · intro g uid h hcond
    rcases hcond with hc | hc
    · simp [doctorTimeline, h, hc]
    · simp [doctorTimeline, h, hc]

/-- Witness for C3's amended statement: an unknown token yields the 404
failure. -/
theorem c3_opaque_errors_witness :
    doctorTimeline stC3 "no-such-token" 2000 =
      TimelineResult.err 404 "Invalid or expired doctor access token." :=
  (c3_opaque_errors stC3 "no-such-token" 2000).1 (by decide)

/-- C3 counterexample: after revoking grant `g1`, a revoked token and an
expired token both yield the same 403 failure, but an unknown token yields a
404 with a different message — the three failing calls are not all the same
opaque failure, so an unknown token is distinguishable. -/
theorem c3_counterexample :
    doctorTimeline (revokeDoctorAccessToken stC3 "p" "g1").2 "no-such-token" 2000 =
      TimelineResult.err 404 "Invalid or expired doctor access token." ∧
    doctorTimeline (revokeDoctorAccessToken stC3 "p" "g1").2 "tokrev" 2000 =
      TimelineResult.err 403 "Doctor access token is inactive or expired." ∧
    doctorTimeline (revokeDoctorAccessToken stC3 "p" "g1").2 "tokexp" 2000 =
      TimelineResult.err 403 "Doctor access token is inactive or expired." ∧
    (TimelineResult.err 404 "Invalid or expired doctor access token." ≠
      TimelineResult.err 403 "Doctor access token is inactive or expired.") := by decide

/-- C4 (amended): issuance commits exactly the two independently drawn
`uuidv4` outputs as the grant's `id` and `token`: there is no verification
against the tokens already in the store and no regeneration on collision —
whenever the ownership check passes, the grant is created with the supplied
token value unconditionally. -/
theorem c4_no_collision_check (st : Store) (uid : String) (ids : List String)
    (tid tv : String) (now : ℕ)
    (h0 : ids.isEmpty = false)
    (hlen : (getByIds st uid ids).length = ids.length)
    (huser : st.users.all (fun u => !(u.uid == uid)) = false) :
    (createDoctorAccessToken st uid ids tid tv now).1 =
      IssueResult.created ⟨tid, uid, tv, now + 24 * 60 * 60 * 1000, true, now, ids⟩ := by
  simp [createDoctorAccessToken, h0, hlen, huser]

/-- Witness for C4's amended statement at a concrete store. -/
theorem c4_no_collision_check_witness :
    (createDoctorAccessToken stC4 "p" ["r1"] "g2" "fresh" 0).1 =
      IssueResult.created ⟨"g2", "p", "fresh", 86400000, true, 0, ["r1"]⟩ :=
  c4_no_collision_check stC4 "p" ["r1"] "g2" "fresh" 0 (by decide) (by decide) (by decide)

/-- C4 counterexample: issuing with a token value that an existing grant
already holds succeeds and commits a second grant with the same token (two
grants then share the bearer token `TOK`), and issuing with the token value
equal to the grant id also succeeds — the registry neither checks collisions
nor keeps `token` distinct from `id`. -/
theorem c4_counterexample :
    (createDoctorAccessToken stC4 "p" ["r1"] "g2" "TOK" 0).1 =
      IssueResult.created ⟨"g2", "p", "TOK", 86400000, true, 0, ["r1"]⟩ ∧
    countToken stC4 "TOK" = 1 ∧
    countToken (createDoctorAccessToken stC4 "p" ["r1"] "g2" "TOK" 0).2 "TOK" = 2 ∧
    (createDoctorAccessToken stC4 "p" ["r1"] "g3" "g3" 0).1 =
      IssueResult.created ⟨"g3", "p", "g3", 86400000, true, 0, ["r1"]⟩ := by decide

/-- C8 (amended): token resolution is a linear scan: when no grant carries
the presented token, every user document in the store is examined, so the
cost of a resolution equals the number of patient accounts rather than being
independent of it. -/
theorem c8_linear_scan (users : List UserDoc) (tv : String)
    (habs : ∀ u ∈ users, ∀ p ∈ u.doctorAccessTokens, ¬p.2.token = tv) :
    (findTokenScan users tv).1 = none ∧ (findTokenScan users tv).2 = users.length := by
  induction users with
  | nil => exact ⟨rfl, rfl⟩
  | cons u rest ih =>
      have hu : u.doctorAccessTokens.find? (fun p => p.2.token == tv) = none := by
        rw [List.find?_eq_none]
        intro p hp
        simpa using habs u (by simp) p hp
      have ihr := ih (fun w hw p hp => habs w (List.mem_cons_of_mem _ hw) p hp)
      simp [findTokenScan, hu, ihr.1, ihr.2]

/-- Witness for C8's amended statement on a three-patient store. -/
theorem c8_linear_scan_witness :
    (findTokenScan [emptyUser "a", emptyUser "b", emptyUser "c"] "t").1 = none ∧
    (findTokenScan [emptyUser "a", emptyUser "b", emptyUser "c"] "t").2 =
      [emptyUser "a", emptyUser "b", emptyUser "c"].length :=
  c8_linear_scan [emptyUser "a", emptyUser "b", emptyUser "c"] "t" (by decide)

/-- C8 counterexample: two stores with identical grant content (none) but
different patient counts make the same resolution examine 1 vs 3 user
documents while producing the same observable result — the cost is not
independent of the number of patient accounts, i.e. not an O(1) indexed
lookup. -/
theorem c8_counterexample :
    (findTokenScan [emptyUser "a"] "t").2 = 1 ∧
    (findTokenScan [emptyUser "a", emptyUser "b", emptyUser "c"] "t").2 = 3 ∧
    doctorTimeline ⟨[emptyUser "a"], []⟩ "t" 0 =
      doctorTimeline ⟨[emptyUser "a", emptyUser "b", emptyUser "c"], []⟩ "t" 0 ∧
    (1 : ℕ) ≠ 3 := by decide

/-- C9 (amended): `GET /patient/reports` returns exactly the owner's reports
ordered by `timestamp` (capturedAt) descending, with ties broken by the
report's document id in the sort direction — not by `uploadedAt`
(ingestedAt).  The order is still deterministic, but keyed on the id. -/
theorem c9_listByOwner_order (st : Store) (uid : String) :
    List.Perm (getPatientReports st uid) (st.reports.filter (fun r => r.userId == uid)) ∧
    List.Sorted fsAfter (getPatientReports st uid) ∧
    ∀ r ∈ getPatientReports st uid, r.userId = uid := by
  refine ⟨List.perm_insertionSort _ _, List.sorted_insertionSort _ _, ?_⟩
  intro r hr
  have hmem : r ∈ st.reports.filter (fun w => w.userId == uid) :=
    (List.perm_insertionSort fsAfter _).mem_iff.mp hr
  simpa using (List.mem_filter.mp hmem).2

/-- C9 counterexample: three reports of `p` share the same clinical date;
the claimed tie-break by `uploadedAt` descending would order them
`[rB, rA, rC]`, but the source returns `[rC, rB, rA]` (document id
descending). -/
theorem c9_counterexample :
    getPatientReports stC9 "p" = [rC, rB, rA] ∧
    rA.timestamp = rB.timestamp ∧ rB.timestamp = rC.timestamp ∧
    rC.uploadedAt.toList < rA.uploadedAt.toList ∧
    rA.uploadedAt.toList < rB.uploadedAt.toList ∧
    getPatientReports stC9 "p" ≠ [rB, rA, rC] := by decide
